import Mathlib

/-!
Verification of the Phantasma Explorer API client (`phantasma.py`,
`type_handlers.py`, `interfaces.py`).  Python values are shallowly
embedded: `Decimal` values are exact rationals (`ℚ`, built with `mkRat`),
machine floats are `PyFloat` (NaN, signed infinity, or a finite value kept
as an exact rational; IEEE-754 rounding of finite floats is not modelled
and no claim depends on it), datetimes carry an abstract wall-clock value
and an optional UTC offset, and fallible Python code returns
`Except String`.  Upstream HTTP responses are abstracted as environment
functions returning the parsed payload lists or a transport/shape error.
-/

deriving instance DecidableEq for Except

namespace Phantasma

/-- Whitespace strip on both ends: structural-recursion model of Python
`str.strip()` (also used for pandas `.str.strip()`). -/
def trimChars (cs : List Char) : List Char :=
  ((cs.dropWhile Char.isWhitespace).reverse.dropWhile Char.isWhitespace).reverse

/-- String-level strip. -/
def pyStrip (s : String) : String := ⟨trimChars s.toList⟩

/-- Numeric value of a nonempty all-digit character list. -/
def natOfDigits (cs : List Char) : Option ℕ :=
  if cs.isEmpty then none
  else cs.foldl (fun a c => a.bind fun n => if c.isDigit then some (10 * n + (c.toNat - 48)) else none) (some 0)

/-- Mantissa part `digits[.digits]` of a numeric literal, as a scaled
integer together with the number of fractional digits; at least one digit
must be present overall. -/
def mantissaParts (cs : List Char) : Option (ℕ × ℕ) :=
  match cs.splitOn '.' with
  | [ip] => (natOfDigits ip).map fun n => (n, 0)
  | [ip, fp] =>
      if ip.isEmpty && fp.isEmpty then none
      else
        match (if ip.isEmpty then some 0 else natOfDigits ip),
              (if fp.isEmpty then some 0 else natOfDigits fp) with
        | some i, some f => some (i * 10 ^ fp.length + f, fp.length)
        | _, _ => none
  | _ => none

/-- Optional sign at the head of a literal; `true` means negative. -/
def signSplit (cs : List Char) : Bool × List Char :=
  match cs with
  | '-' :: t => (true, t)
  | '+' :: t => (false, t)
  | _ => (false, cs)

/-- Signed integer literal (used for exponents). -/
def signedIntOfChars (cs : List Char) : Option ℤ :=
  (natOfDigits (signSplit cs).2).map fun n =>
    if (signSplit cs).1 then -(n : ℤ) else (n : ℤ)

/-- Value of an unsigned numeric literal
`digits[.digits][(e|E)[sign]digits]`, as an exact rational. -/
def numLitVal (cs : List Char) : Option ℚ :=
  match (cs.map fun c => if c = 'E' then 'e' else c).splitOn 'e' with
  | [m] => (mantissaParts m).map fun p => mkRat p.1 (10 ^ p.2)
  | [m, ex] =>
      match mantissaParts m, signedIntOfChars ex with
      | some p, some e =>
          if 0 ≤ e then some (mkRat (p.1 * 10 ^ e.toNat) (10 ^ p.2))
          else some (mkRat p.1 (10 ^ p.2 * 10 ^ (-e).toNat))
      | _, _ => none
  | _ => none

/-- Python `decimal.Decimal(s)` on a string: optional surrounding
whitespace, optional sign, numeric literal with optional exponent.  The
special payloads `NaN`/`Infinity` accepted by Python and digit-grouping
underscores are outside the modelled scope (no claim exercises them); on
anything unparseable Python raises `InvalidOperation`, modelled as
`.error`. -/
def pyDecimal (s : String) : Except String ℚ :=
  match numLitVal (signSplit (trimChars s.toList)).2 with
  | some q => .ok (if (signSplit (trimChars s.toList)).1 then -q else q)
  | none => .error "InvalidOperation"

/-- Python float values: NaN, signed infinity, or a finite value kept as an
exact rational (rounding not modelled). -/
inductive PyFloat where
  | nan
  | inf (neg : Bool)
  | fin (q : ℚ)
deriving DecidableEq, Repr

/-- Python `float(s)` on a string: optional whitespace and sign, then
`nan`, `inf`/`infinity` (case-insensitive) or a numeric literal. -/
def pyFloatOfString (s : String) : Except String PyFloat :=
  let core := (signSplit (trimChars s.toList)).2
  let neg := (signSplit (trimChars s.toList)).1
  let lower := core.map Char.toLower
  if lower = [ 'n', 'a', 'n' ] then .ok .nan
  else if lower = [ 'i', 'n', 'f' ] ∨ lower = "infinity".toList then .ok (.inf neg)
  else
    match numLitVal core with
    | some q => .ok (.fin (if neg then -q else q))
    | none => .error "ValueError"

/-- Python/pandas datetime: an abstract wall-clock reading plus an optional
timezone (`none` = naive).  Only the identity of the wall value and the
presence of the zone matter to the claims. -/
structure PyDatetime where
  wall : ℚ
  tz : Option ℤ
deriving DecidableEq, Repr

/-- Model of `datetime.replace(tzinfo=None)` (also of
`tz_localize(None)`): the zone is dropped and the wall clock is untouched
(stripping, not conversion). -/
def replaceTzNone (d : PyDatetime) : PyDatetime := { d with tz := none }

/-- Model of `datetime.fromtimestamp(x)`: epoch value to naive local
datetime.  The local-zone conversion is abstracted as the identity on the
wall value; the result is always naive. -/
def fromtimestamp (q : ℚ) : PyDatetime := { wall := q, tz := none }

/-- Python scalar values flowing through the type handler. -/
inductive Scalar where
  | sNone
  | sInt (n : ℤ)
  | sFloat (f : PyFloat)
  | sStr (s : String)
  | sDec (q : ℚ)
  | sDt (d : PyDatetime)
deriving DecidableEq, Repr

/-- Model of `pandas.isna` on scalars. -/
def pdIsNa : Scalar → Bool
  | .sNone => true
  | .sFloat .nan => true
  | _ => false

/-- Rendering of a rational as a literal; used only for the `str()` image
of finite-float and Decimal cells, which no claim inspects. -/
def ratLit (q : ℚ) : String :=
  if q.den = 1 then toString q.num else toString q.num ++ "/" ++ toString q.den

/-- Python `str(value)`.  Integer, `None`, NaN and string scalars render
exactly as in Python; the rendering of finite floats, Decimal and datetime
scalars is abstracted (no claim depends on it). -/
def pyStr : Scalar → String
  | .sNone => "None"
  | .sInt n => toString n
  | .sFloat .nan => "nan"
  | .sFloat (.inf neg) => if neg then "-inf" else "inf"
  | .sFloat (.fin q) => ratLit q
  | .sStr s => s
  | .sDec q => ratLit q
  | .sDt _ => "<datetime>"

/-- Python `float(value)` builtin on a scalar. -/
def pyFloatOf : Scalar → Except String PyFloat
  | .sNone => .error "TypeError"
  | .sInt n => .ok (.fin (n : ℚ))
  | .sFloat f => .ok f
  | .sStr s => pyFloatOfString s
  | .sDec q => .ok (.fin q)
  | .sDt _ => .error "TypeError"

/-- Truncation toward zero performed by `int()` on a float; fails on NaN
and infinity exactly as Python does. -/
def pyTruncFloat : PyFloat → Except String ℤ
  | .nan => .error "ValueError"
  | .inf _ => .error "OverflowError"
  | .fin q => .ok (if 0 ≤ q then Rat.floor q else -Rat.floor (-q))

/-- `StrictTypeHandler.to_decimal`: NaN/missing map to `Decimal(0)`;
otherwise `Decimal(str(value))`, any failure re-raised as a conversion
`ValueError`. -/
def to_decimal (v : Scalar) : Except String ℚ :=
  if pdIsNa v then .ok 0
  else
    match pyDecimal (pyStr v) with
    | .ok q => .ok q
    | .error _ => .error "Cannot convert to Decimal"

/-- `StrictTypeHandler.to_float`: NaN/missing map to `0.0`; otherwise the
`float` builtin, any failure re-raised as a conversion `ValueError`. -/
def to_float (v : Scalar) : Except String PyFloat :=
  if pdIsNa v then .ok (.fin 0)
  else
    match pyFloatOf v with
    | .ok f => .ok f
    | .error _ => .error "Cannot convert to float"

/-- `StrictTypeHandler.to_int`: `int(float(str(value)))`, any failure
re-raised as a conversion `ValueError`; unlike its siblings there is no
missing-value default. -/
def to_int (v : Scalar) : Except String ℤ :=
  match pyFloatOfString (pyStr v) with
  | .ok f =>
      match pyTruncFloat f with
      | .ok n => .ok n
      | .error _ => .error "Cannot convert to int"
  | .error _ => .error "Cannot convert to int"

/-- `StrictTypeHandler.to_timestamp`.  The `pdp` argument abstracts
`pandas.to_datetime` (an external library call) on the scalars that reach
the fallback branch; the claims quantify over its behaviour. -/
def to_timestamp (pdp : Scalar → Except String PyDatetime) (v : Scalar) : Except String PyDatetime :=
  match v with
  | .sDt d => .ok (replaceTzNone d)
  | .sInt n => .ok (fromtimestamp (n : ℚ))
  | .sFloat (.fin q) => .ok (fromtimestamp q)
  | .sFloat .nan => .error "ValueError"
  | .sFloat (.inf _) => .error "OverflowError"
  | w =>
      match pdp w with
      | .ok ts => .ok (replaceTzNone ts)
      | .error _ => .error "Cannot convert to timestamp"

/-- Column-oriented model of a `pandas.DataFrame`: named columns of scalar
cells. -/
structure Df where
  cols : List (String × List Scalar)
deriving DecidableEq, Repr

/-- Model of `df[name]`: raises `KeyError` when the column is absent. -/
def dfGetCol (df : Df) (name : String) : Except String (List Scalar) :=
  match df.cols.find? fun c => c.1 == name with
  | some c => .ok c.2
  | none => .error "KeyError"

/-- Model of `pd.DataFrame(records)` on a list of per-row key/cell
records: an empty record list yields a frame with no columns at all;
otherwise the columns are the keys of the first record (all records built
by this client share one key set). -/
def pdDataFrame (records : List (List (String × Scalar))) : Df :=
  match records with
  | [] => ⟨[]⟩
  | r0 :: _ =>
      ⟨r0.map fun kv =>
        (kv.1, records.map fun r => ((r.find? fun kv2 => kv2.1 == kv.1).map Prod.snd).getD .sNone)⟩

/-- Model of `col.astype(str).str.strip()`. -/
def strCol (cells : List Scalar) : List Scalar :=
  cells.map fun c => .sStr (pyStrip (pyStr c))

/-- Model of `col.dt.tz_localize(None)`: drops the zone from every
datetime cell, preserving the wall clock. -/
def tzLocalizeNoneCol (cells : List Scalar) : List Scalar :=
  cells.map fun c =>
    match c with
    | .sDt d => .sDt (replaceTzNone d)
    | other => other

/-- `StrictTypeHandler.format_holders_df`. -/
def format_holders_df (df : Df) : Except String Df := do
  let oa ← dfGetCol df "owner_address"
  let bal ← dfGetCol df "balance"
  let bal2 ← bal.mapM to_decimal
  pure ⟨[("owner_address", strCol oa), ("balance", bal2.map .sDec)]⟩

/-- `StrictTypeHandler.format_historical_holders_df` (no trailing
`tz_localize` line in the source). -/
def format_historical_holders_df (pdp : Scalar → Except String PyDatetime) (df : Df) : Except String Df := do
  let ts ← dfGetCol df "timestamp"
  let ts2 ← ts.mapM (to_timestamp pdp)
  let oa ← dfGetCol df "owner_address"
  let bal ← dfGetCol df "balance"
  let bal2 ← bal.mapM to_decimal
  pure ⟨[("timestamp", ts2.map .sDt), ("owner_address", strCol oa), ("balance", bal2.map .sDec)]⟩

/-- `StrictTypeHandler.format_prices_df`, including the final
`tz_localize(None)` on the timestamp column. -/
def format_prices_df (pdp : Scalar → Except String PyDatetime) (df : Df) : Except String Df := do
  let ts ← dfGetCol df "timestamp"
  let ts2 ← ts.mapM (to_timestamp pdp)
  let ap ← dfGetCol df "average_price"
  let ap2 ← ap.mapM to_float
  let cp ← dfGetCol df "close_price"
  let cp2 ← cp.mapM to_float
  let vol ← dfGetCol df "volume"
  let vol2 ← vol.mapM to_decimal
  pure ⟨[("timestamp", tzLocalizeNoneCol (ts2.map .sDt)),
         ("average_price", ap2.map .sFloat), ("close_price", cp2.map .sFloat),
         ("volume", vol2.map .sDec)]⟩

/-- `StrictTypeHandler.format_transfers_df`, including the final
`tz_localize(None)` on the timestamp column. -/
def format_transfers_df (pdp : Scalar → Except String PyDatetime) (df : Df) : Except String Df := do
  let ts ← dfGetCol df "timestamp"
  let ts2 ← ts.mapM (to_timestamp pdp)
  let fa ← dfGetCol df "from_address"
  let ta ← dfGetCol df "to_address"
  let qt ← dfGetCol df "quantity"
  let qt2 ← qt.mapM to_decimal
  let th ← dfGetCol df "transaction_hash"
  pure ⟨[("timestamp", tzLocalizeNoneCol (ts2.map .sDt)),
         ("from_address", strCol fa), ("to_address", strCol ta),
         ("quantity", qt2.map .sDec), ("transaction_hash", strCol th)]⟩

/-- Raw dictionary handed to `StrictTypeHandler.format_token_info` by
`fetch_token_info`; optional keys model `dict.get` defaults. -/
structure RawTokenInfo where
  created_timestamp : Scalar
  decimals : Option Scalar
  symbol : Option Scalar
  name : Option Scalar
  supply : Option Scalar
  creators : Option (List Scalar)
  involved : Option (List Scalar)
  early_transfers : Option Scalar
deriving DecidableEq, Repr

/-- Normalized token-info record built by `format_token_info`. -/
structure TokenInfo where
  created_timestamp : PyDatetime
  decimals : ℤ
  symbol : String
  sf_base : String
  sf_lunar : String
  sf_ccxt : String
  sf_lower : String
  name : String
  supply : ℚ
  creators : Option (List String)
  involved : Option (List String)
  early_transfers : Option Scalar
deriving DecidableEq, Repr

/-- `StrictTypeHandler.format_token_info`: derives the symbol formats from
the trimmed base symbol and passes optional fields through. -/
def format_token_info (pdp : Scalar → Except String PyDatetime) (d : RawTokenInfo) : Except String TokenInfo := do
  let baseSymbol := pyStrip (pyStr (d.symbol.getD (.sStr "")))
  let ts ← to_timestamp pdp d.created_timestamp
  let dec ← to_int (d.decimals.getD (.sInt 0))
  let sup ← to_decimal (d.supply.getD (.sInt 0))
  pure { created_timestamp := ts
         decimals := dec
         symbol := baseSymbol
         sf_base := baseSymbol
         sf_lunar := baseSymbol.toUpper
         sf_ccxt := baseSymbol.toUpper ++ "/USDT"
         sf_lower := baseSymbol.toLower
         name := pyStrip (pyStr (d.name.getD (.sStr "")))
         supply := sup
         creators := d.creators.map fun l => l.map fun a => pyStrip (pyStr a)
         involved := d.involved.map fun l => l.map fun a => pyStrip (pyStr a)
         early_transfers := d.early_transfers }

/-- Model of the boundary `try: ... except Exception: return None` wrapping
every fetch operation: any raised exception is converted to the absent
result, and the wrapped computation itself never raises. -/
def tryExceptNone {α : Type} : Except String α → Except String (Option α)
  | .ok a => .ok (some a)
  | .error _ => .ok none

/-- Upstream shape `b['token']` of a per-token balance entry. -/
structure TokenRef where
  symbol : String
deriving DecidableEq, Repr

/-- Upstream per-token balance entry attached to a holder. -/
structure RawBalance where
  token : TokenRef
  amount : String
deriving DecidableEq, Repr

/-- Upstream holder entry of one `addresses` page. -/
structure RawHolder where
  address : String
  balances : List RawBalance
deriving DecidableEq, Repr

/-- Record appended to `all_holders` (the balance is kept as the raw
string, exactly as in the source). -/
structure HolderRow where
  owner_address : String
  balance : String
deriving DecidableEq, Repr

/-- Model of
`next((b['amount'] for b in holder['balances'] if b['token']['symbol'] == token_symbol), '0')`. -/
def extractBalance (sym : String) (h : RawHolder) : String :=
  ((h.balances.find? fun b => b.token.symbol == sym).map RawBalance.amount).getD "0"

/-- Per-page body of the `fetch_holders` loop: extract each holder's
balance for the token's own symbol, parse it as a `Decimal` (a parse
failure raises), and keep the holder iff the balance is `>= min_balance`. -/
def holdersProcessPage (sym : String) (minB : ℚ) : List RawHolder → Except String (List HolderRow)
  | [] => .ok []
  | h :: t => do
      let balance := extractBalance sym h
      let d ← pyDecimal balance
      let rest ← holdersProcessPage sym minB t
      if minB ≤ d then pure ({ owner_address := h.address, balance := balance } :: rest)
      else pure rest

/-- Upstream responses seen by `fetch_holders`: the resolved symbol and,
for the k-th page request (offset `k * limit`), the parsed `addresses`
list; `.error` covers transport failures and malformed response shapes. -/
structure HoldersEnv where
  resolveSymbol : Except String String
  addressPages : ℕ → Except String (List RawHolder)

/-- The `while True` pagination loop of `fetch_holders`, with fuel (the
Python loop has none and may diverge; `none` = no answer within fuel).
Returns the accumulated rows and the number of page requests made. -/
def holdersLoop (env : HoldersEnv) (sym : String) (minB : ℚ) (limit : ℕ) :
    ℕ → ℕ → List HolderRow → Option (Except String (List HolderRow × ℕ))
  | 0, _, _ => none
  | fuel + 1, k, acc =>
      match env.addressPages k with
      | .error e => some (.error e)
      | .ok page =>
          if page.isEmpty then some (.ok (acc, k + 1))
          else
            match holdersProcessPage sym minB page with
            | .error e => some (.error e)
            | .ok rows =>
                if page.length < limit then some (.ok (acc ++ rows, k + 1))
                else holdersLoop env sym minB limit fuel (k + 1) (acc ++ rows)

/-- Cell record built from one accumulated holder row. -/
def holderRowCells (r : HolderRow) : List (String × Scalar) :=
  [("owner_address", .sStr r.owner_address), ("balance", .sStr r.balance)]

/-- Body of `PhantasmaAPI.fetch_holders` before the exception boundary. -/
def fetch_holders_body (env : HoldersEnv) (minB : ℚ) (fuel : ℕ) : Option (Except String Df) :=
  match env.resolveSymbol with
  | .error e => some (.error e)
  | .ok sym =>
      match holdersLoop env sym minB 20000 fuel 0 [] with
      | none => none
      | some (.error e) => some (.error e)
      | some (.ok (rows, _)) => some (format_holders_df (pdDataFrame (rows.map holderRowCells)))

/-- `PhantasmaAPI.fetch_holders`: the page loop plus the
`except Exception: return None` boundary (outer `none` = the unbounded
Python loop exceeded the fuel). -/
def fetch_holders (env : HoldersEnv) (minB : ℚ) (fuel : ℕ) : Option (Except String (Option Df)) :=
  (fetch_holders_body env minB fuel).map tryExceptNone

/-- Upstream shape `event['token_event']`. -/
structure TokenEvent where
  value : String
deriving DecidableEq, Repr

/-- Upstream event record of one `events` page. -/
structure Event where
  date : ℤ
  address : String
  token_event : TokenEvent
  transaction_hash : String
deriving DecidableEq, Repr

/-- Record appended to `all_transfers` (quantity kept as the raw value
string, as in the source). -/
structure TransferRow where
  timestamp : ℤ
  from_address : String
  to_address : String
  quantity : String
  transaction_hash : String
deriving DecidableEq, Repr

/-- Transfer record built from a positionally paired (send, receive) event
pair: timestamp, sender, quantity and hash from the send event, the
destination from the receive event. -/
def mkTransferRow (s r : Event) : TransferRow :=
  { timestamp := s.date
    from_address := s.address
    to_address := r.address
    quantity := s.token_event.value
    transaction_hash := s.transaction_hash }

/-- Truthiness of the optional `addresses` set (`if addresses:`): false for
`None` and for an empty set. -/
def addrTruthy : Option (List String) → Bool
  | none => false
  | some l => !l.isEmpty

/-- Elements of the optional `addresses` set. -/
def addrElems (a : Option (List String)) : List String := a.getD []

/-- Filter decision of `fetch_transfers` for one paired (send, receive)
event with parsed send value `v`: drop when `v < min_value`; when a truthy
address set is supplied, additionally require the sender (with
`from_address_only`) or either endpoint (otherwise) to be of interest. -/
def transferKeep (minV : ℚ) (addrs : Option (List String)) (fromOnly : Bool) (s r : Event) (v : ℚ) : Bool :=
  if v < minV then false
  else if addrTruthy addrs then
    if fromOnly then (addrElems addrs).contains s.address
    else (addrElems addrs).contains s.address || (addrElems addrs).contains r.address
  else true

/-- Per-page body of the `fetch_transfers` loop: iterate the send events by
position, index the receive list at the same position (`IndexError` when
the receive list is shorter), parse the send value and apply the filters. -/
def pairTransfersPage (minV : ℚ) (addrs : Option (List String)) (fromOnly : Bool) :
    List Event → List Event → Except String (List TransferRow)
  | [], _ => .ok []
  | _ :: _, [] => .error "IndexError"
  | s :: st, r :: rt => do
      let v ← pyDecimal s.token_event.value
      let rest ← pairTransfersPage minV addrs fromOnly st rt
      if transferKeep minV addrs fromOnly s r v then pure (mkTransferRow s r :: rest)
      else pure rest

/-- Upstream responses seen by `fetch_transfers`/`fetch_early_transfers`:
the resolved symbol and, for the k-th page request, the parsed `events`
lists of the `TokenSend` and `TokenReceive` queries. -/
structure TransfersEnv where
  resolveSymbol : Except String String
  sendPages : ℕ → Except String (List Event)
  recvPages : ℕ → Except String (List Event)

/-- The `while True` pagination loop of `fetch_transfers`, with fuel.  Both
requests of a page are issued before the emptiness test; the loop stops as
soon as either stream returns zero events. -/
def transfersLoop (env : TransfersEnv) (minV : ℚ) (addrs : Option (List String)) (fromOnly : Bool) (limit : ℕ) :
    ℕ → ℕ → List TransferRow → Option (Except String (List TransferRow))
  | 0, _, _ => none
  | fuel + 1, k, acc =>
      match env.sendPages k with
      | .error e => some (.error e)
      | .ok s =>
          match env.recvPages k with
          | .error e => some (.error e)
          | .ok r =>
              if s.isEmpty || r.isEmpty then some (.ok acc)
              else
                match pairTransfersPage minV addrs fromOnly s r with
                | .error e => some (.error e)
                | .ok rows =>
                    if s.length < limit then some (.ok (acc ++ rows))
                    else transfersLoop env minV addrs fromOnly limit fuel (k + 1) (acc ++ rows)

/-- Cell record built from one accumulated transfer row. -/
def transferRowCells (r : TransferRow) : List (String × Scalar) :=
  [("timestamp", .sInt r.timestamp), ("from_address", .sStr r.from_address),
   ("to_address", .sStr r.to_address), ("quantity", .sStr r.quantity),
   ("transaction_hash", .sStr r.transaction_hash)]

/-- Body of `PhantasmaAPI.fetch_transfers` before the exception boundary. -/
def fetch_transfers_body (pdp : Scalar → Except String PyDatetime) (env : TransfersEnv)
    (addrs : Option (List String)) (fromOnly : Bool) (minV : ℚ) (fuel : ℕ) : Option (Except String Df) :=
  match env.resolveSymbol with
  | .error e => some (.error e)
  | .ok _ =>
      match transfersLoop env minV addrs fromOnly 20000 fuel 0 [] with
      | none => none
      | some (.error e) => some (.error e)
      | some (.ok rows) => some (format_transfers_df pdp (pdDataFrame (rows.map transferRowCells)))

/-- `PhantasmaAPI.fetch_transfers`: dual-stream pagination plus the
`except Exception: return None` boundary. -/
def fetch_transfers (pdp : Scalar → Except String PyDatetime) (env : TransfersEnv)
    (addrs : Option (List String)) (fromOnly : Bool) (minV : ℚ) (fuel : ℕ) :
    Option (Except String (Option Df)) :=
  (fetch_transfers_body pdp env addrs fromOnly minV fuel).map tryExceptNone

/-- Exact rational value of `Decimal(0.005)` as written in
`fetch_early_transfers`: the Python literal `0.005` is an IEEE-754 double,
and `Decimal` of a float converts that double exactly, giving
5764607523034235 / 2^60 (slightly above 1/200). -/
def kcalDustThreshold : ℚ := mkRat 5764607523034235 1152921504606846976

/-- Per-page body of the `fetch_early_transfers` loop: no address or
minimum-value filtering; only for the resolved symbol "KCAL" a pair is
dropped when its parsed send value is below `Decimal(0.005)` (the
conjunction short-circuits, so the value is parsed only for "KCAL"). -/
def pairEarlyPage (sym : String) : List Event → List Event → Except String (List TransferRow)
  | [], _ => .ok []
  | _ :: _, [] => .error "IndexError"
  | s :: st, r :: rt => do
      let skip ← if sym == "KCAL" then do
          let v ← pyDecimal s.token_event.value
          pure (decide (v < kcalDustThreshold))
        else pure false
      let rest ← pairEarlyPage sym st rt
      if skip then pure rest else pure (mkTransferRow s r :: rest)

/-- The `while True` pagination loop of `fetch_early_transfers`. -/
def earlyLoop (env : TransfersEnv) (sym : String) (limit : ℕ) :
    ℕ → ℕ → List TransferRow → Option (Except String (List TransferRow))
  | 0, _, _ => none
  | fuel + 1, k, acc =>
      match env.sendPages k with
      | .error e => some (.error e)
      | .ok s =>
          match env.recvPages k with
          | .error e => some (.error e)
          | .ok r =>
              if s.isEmpty || r.isEmpty then some (.ok acc)
              else
                match pairEarlyPage sym s r with
                | .error e => some (.error e)
                | .ok rows =>
                    if s.length < limit then some (.ok (acc ++ rows))
                    else earlyLoop env sym limit fuel (k + 1) (acc ++ rows)

/-- Body of `PhantasmaAPI.fetch_early_transfers` before the exception
boundary (the resolved symbol feeds the KCAL dust filter). -/
def fetch_early_transfers_body (pdp : Scalar → Except String PyDatetime) (env : TransfersEnv) (fuel : ℕ) :
    Option (Except String Df) :=
  match env.resolveSymbol with
  | .error e => some (.error e)
  | .ok sym =>
      match earlyLoop env sym 20000 fuel 0 [] with
      | none => none
      | some (.error e) => some (.error e)
      | some (.ok rows) => some (format_transfers_df pdp (pdDataFrame (rows.map transferRowCells)))

/-- `PhantasmaAPI.fetch_early_transfers`. -/
def fetch_early_transfers (pdp : Scalar → Except String PyDatetime) (env : TransfersEnv) (fuel : ℕ) :
    Option (Except String (Option Df)) :=
  (fetch_early_transfers_body pdp env fuel).map tryExceptNone

/-- Upstream price point of the `historyPrices` response: epoch date, the
single USD price series, and an optional volume. -/
structure RawPricePoint where
  date : ℤ
  price_usd : Scalar
  volume : Option Scalar
deriving DecidableEq, Repr

/-- Upstream responses seen by `fetch_prices`. -/
structure PricesEnv where
  resolveSymbol : Except String String
  historyPrices : Except String (List RawPricePoint)

/-- Cell record built from one price point
(`price_point.get('volume', '0')` supplies the default). -/
def priceRowCells (p : RawPricePoint) : List (String × Scalar) :=
  [("timestamp", .sInt p.date), ("average_price", p.price_usd),
   ("close_price", p.price_usd), ("volume", p.volume.getD (.sStr "0"))]

/-- Body of `PhantasmaAPI.fetch_prices` (single request, no pagination). -/
def fetch_prices_body (pdp : Scalar → Except String PyDatetime) (env : PricesEnv) : Except String Df := do
  let _ ← env.resolveSymbol
  let pts ← env.historyPrices
  format_prices_df pdp (pdDataFrame (pts.map priceRowCells))

/-- `PhantasmaAPI.fetch_prices`. -/
def fetch_prices (pdp : Scalar → Except String PyDatetime) (env : PricesEnv) : Except String (Option Df) :=
  tryExceptNone (fetch_prices_body pdp env)

/-- Upstream token record of the `tokens` response. -/
structure RawTokenUpstream where
  create_event_creation_date : Option ℤ
  decimals : Scalar
  symbol : Scalar
  name : Scalar
  current_supply : Scalar
deriving DecidableEq, Repr

/-- Upstream responses seen by `fetch_token_info`. -/
structure TokenInfoEnv where
  resolveSymbol : Except String String
  tokens : Except String (List RawTokenUpstream)

/-- Body of `PhantasmaAPI.fetch_token_info`: `results['tokens'][0]`
(IndexError on an empty list), `created_ts` defaulting to 0 when no
creation event is present, then normalization. -/
def fetch_token_info_body (pdp : Scalar → Except String PyDatetime) (env : TokenInfoEnv) :
    Except String TokenInfo := do
  let _ ← env.resolveSymbol
  let toks ← env.tokens
  match toks with
  | [] => .error "IndexError"
  | r :: _ =>
      let created_ts : ℤ := (r.create_event_creation_date).getD 0
      format_token_info pdp
        { created_timestamp := .sInt created_ts
          decimals := some r.decimals
          symbol := some r.symbol
          name := some r.name
          supply := some r.current_supply
          creators := none
          involved := none
          early_transfers := none }

/-- `PhantasmaAPI.fetch_token_info`. -/
def fetch_token_info (pdp : Scalar → Except String PyDatetime) (env : TokenInfoEnv) :
    Except String (Option TokenInfo) :=
  tryExceptNone (fetch_token_info_body pdp env)

/-! Helper lemmas shared by the claim theorems. -/

lemma exBind_ok {ε α β : Type} {x : Except ε α} {f : α → Except ε β} {b : β} :
    (x >>= f) = .ok b ↔ ∃ a, x = .ok a ∧ f a = .ok b := by
  cases x <;> simp [Bind.bind, Except.bind]

lemma exBind_err_left {ε α β : Type} {x : Except ε α} {f : α → Except ε β} {e : ε}
    (h : x = .error e) : (x >>= f) = .error e := by
  subst h; rfl

lemma exBind_ok_left {ε α β : Type} {x : Except ε α} {f : α → Except ε β} {a : α}
    (h : x = .ok a) : (x >>= f) = f a := by
  subst h; rfl

lemma ok_bind {ε α β : Type} (a : α) (f : α → Except ε β) : (Except.ok a >>= f : Except ε β) = f a := rfl

lemma err_bind {ε α β : Type} (e : ε) (f : α → Except ε β) : (Except.error e >>= f : Except ε β) = .error e := rfl

lemma isOk_exists {ε α : Type} {x : Except ε α} (h : x.isOk = true) : ∃ a, x = .ok a := by
  cases x with
  | error e => simp [Except.isOk, Except.toBool] at h
  | ok a => exact ⟨a, rfl⟩

lemma mapM_ok_mem {ε α β : Type} {f : α → Except ε β} :
    ∀ {l : List α} {l2 : List β}, l.mapM f = .ok l2 → ∀ b ∈ l2, ∃ a ∈ l, f a = .ok b := by
  intro l
  induction l with
  | nil =>
      intro l2 h b hb
      rw [List.mapM_nil] at h
      simp only [pure, Except.pure, Except.ok.injEq] at h
      subst h
      simp at hb
  | cons a t ih =>
      intro l2 h b hb
      rw [List.mapM_cons] at h
      obtain ⟨b0, hb0, h2⟩ := exBind_ok.mp h
      obtain ⟨bs, hbs, h3⟩ := exBind_ok.mp h2
      simp only [pure, Except.pure, Except.ok.injEq] at h3
      subst h3
      rcases List.mem_cons.mp hb with hbeq | hmem
      · exact ⟨a, List.mem_cons_self a t, hbeq ▸ hb0⟩
      · obtain ⟨a2, ha2, hfa2⟩ := ih hbs b hmem
        exact ⟨a2, List.mem_cons_of_mem a ha2, hfa2⟩

/-- Characterization of the per-page holder processing when every balance
parses: the output is exactly the filter of the page by the
`balance >= min_balance` test. -/
lemma holdersProcessPage_spec (sym : String) (minB : ℚ) :
    ∀ hs : List RawHolder, (∀ h ∈ hs, (pyDecimal (extractBalance sym h)).isOk = true) →
    holdersProcessPage sym minB hs = .ok (hs.filterMap fun h =>
      match pyDecimal (extractBalance sym h) with
      | .ok d => if minB ≤ d then some (HolderRow.mk h.address (extractBalance sym h)) else none
      | .error _ => none) := by
  intro hs
  induction hs with
  | nil => intro _; simp [holdersProcessPage]
  | cons h t ih =>
      intro hok
      obtain ⟨d, hd⟩ := isOk_exists (hok h (List.mem_cons_self h t))
      have ht := ih fun x hx => hok x (List.mem_cons_of_mem h hx)
      simp only [holdersProcessPage]
      rw [exBind_ok_left hd, exBind_ok_left ht]
      simp only [List.filterMap_cons, hd]
      by_cases hge : minB ≤ d
      · simp [hge, pure, Except.pure, HolderRow.mk]
      · simp [hge, pure, Except.pure]

/-- Processing a page of `n` copies of one passing holder keeps all `n`. -/
lemma holdersProcessPage_replicate (sym : String) (minB : ℚ) (h : RawHolder) (d : ℚ)
    (hd : pyDecimal (extractBalance sym h) = .ok d) (hge : minB ≤ d) :
    ∀ n, holdersProcessPage sym minB (List.replicate n h) =
      .ok (List.replicate n (HolderRow.mk h.address (extractBalance sym h))) := by
  intro n
  induction n with
  | zero => simp [holdersProcessPage]
  | succ m ih =>
      simp only [List.replicate_succ, holdersProcessPage]
      rw [exBind_ok_left hd, exBind_ok_left ih]
      simp [hge, pure, Except.pure, HolderRow.mk]

/-- Characterization of the per-page transfer pairing when the receive list
is long enough and every send value parses: the output is the positional
zip filtered by `transferKeep`. -/
lemma pairTransfersPage_spec (minV : ℚ) (addrs : Option (List String)) (fromOnly : Bool) :
    ∀ (send recv : List Event), send.length ≤ recv.length →
    (∀ s ∈ send, (pyDecimal s.token_event.value).isOk = true) →
    pairTransfersPage minV addrs fromOnly send recv =
      .ok ((send.zip recv).filterMap fun p =>
        match pyDecimal p.1.token_event.value with
        | .ok v => if transferKeep minV addrs fromOnly p.1 p.2 v then some (mkTransferRow p.1 p.2) else none
        | .error _ => none) := by
  intro send
  induction send with
  | nil => intro recv _ _; simp [pairTransfersPage]
  | cons s st ih =>
      intro recv hlen hok
      cases recv with
      | nil => simp at hlen
      | cons r rt =>
          obtain ⟨v, hv⟩ := isOk_exists (hok s (List.mem_cons_self s st))
          have hrec := ih rt (by simpa using hlen) fun x hx => hok x (List.mem_cons_of_mem s hx)
          simp only [pairTransfersPage]
          rw [exBind_ok_left hv, exBind_ok_left hrec]
          simp only [List.zip_cons_cons, List.filterMap_cons, hv]
          by_cases hk : transferKeep minV addrs fromOnly s r v
          · simp [hk, pure, Except.pure]
          · simp [hk, pure, Except.pure]

/-- A receive list shorter than the send list always makes the transfer
pairing raise. -/
lemma pairTransfersPage_short (minV : ℚ) (addrs : Option (List String)) (fromOnly : Bool) :
    ∀ (send recv : List Event), recv.length < send.length →
    ∃ e, pairTransfersPage minV addrs fromOnly send recv = .error e := by
  intro send
  induction send with
  | nil => intro recv h; simp at h
  | cons s st ih =>
      intro recv h
      cases recv with
      | nil => exact ⟨"IndexError", rfl⟩
      | cons r rt =>
          cases hv : pyDecimal s.token_event.value with
          | error e =>
              refine ⟨e, ?_⟩
              simp only [pairTransfersPage]
              exact exBind_err_left hv
          | ok v =>
              obtain ⟨e, he⟩ := ih rt (by simpa using h)
              refine ⟨e, ?_⟩
              simp only [pairTransfersPage]
              rw [exBind_ok_left hv]
              exact exBind_err_left he

/-- A receive list shorter than the send list always makes the early
pairing raise. -/
lemma pairEarlyPage_short (sym : String) :
    ∀ (send recv : List Event), recv.length < send.length →
    ∃ e, pairEarlyPage sym send recv = .error e := by
  intro send
  induction send with
  | nil => intro recv h; simp at h
  | cons s st ih =>
      intro recv h
      cases recv with
      | nil => exact ⟨"IndexError", rfl⟩
      | cons r rt =>
          obtain ⟨e, he⟩ := ih rt (by simpa using h)
          by_cases hk : (sym == "KCAL") = true
          · simp only [pairEarlyPage, if_pos hk]
            cases hv : pyDecimal s.token_event.value with
            | error e2 => exact ⟨e2, rfl⟩
            | ok v =>
                refine ⟨e, ?_⟩
                simp only [ok_bind, pure_bind]
                exact exBind_err_left he
          · refine ⟨e, ?_⟩
            simp only [pairEarlyPage, if_neg hk]
            rw [pure_bind]
            exact exBind_err_left he

/-- Receive events at positions beyond the send-list length never influence
the transfer pairing. -/
lemma pairTransfersPage_take {minV : ℚ} {addrs : Option (List String)} {fromOnly : Bool} :
    ∀ (send recv : List Event),
    pairTransfersPage minV addrs fromOnly send recv =
      pairTransfersPage minV addrs fromOnly send (recv.take send.length) := by
  intro send
  induction send with
  | nil => intro recv; rfl
  | cons s st ih =>
      intro recv
      cases recv with
      | nil => rfl
      | cons r rt =>
          simp only [List.length_cons, List.take_succ_cons, pairTransfersPage]
          rw [ih rt]

/-- Receive events at positions beyond the send-list length never influence
the early pairing. -/
lemma pairEarlyPage_take {sym : String} :
    ∀ (send recv : List Event),
    pairEarlyPage sym send recv = pairEarlyPage sym send (recv.take send.length) := by
  intro send
  induction send with
  | nil => intro recv; rfl
  | cons s st ih =>
      intro recv
      cases recv with
      | nil => rfl
      | cons r rt =>
          simp only [List.length_cons, List.take_succ_cons, pairEarlyPage]
          rw [ih rt]

/-! Claim theorems. -/

/-- C10: `to_int` raises a conversion error on NaN and on missing input
rather than returning zero, whereas `to_decimal` and `to_float` map both to
zero; for NaN the float parse inside `to_int` succeeds and the integer
truncation is what fails. -/
theorem claim_C10_to_int_nan :
    to_int (.sFloat .nan) = .error "Cannot convert to int" ∧
    to_int .sNone = .error "Cannot convert to int" ∧
    pyFloatOfString (pyStr (.sFloat .nan)) = .ok .nan ∧
    pyTruncFloat .nan = .error "ValueError" ∧
    to_decimal (.sFloat .nan) = .ok 0 ∧
    to_decimal .sNone = .ok 0 ∧
    to_float (.sFloat .nan) = .ok (.fin 0) ∧
    to_float .sNone = .ok (.fin 0) := by
  decide

/-- Send event whose value is the decimal string "0.005", i.e. exactly
1/200. -/
def kcalEdgeSend : Event :=
  { date := 100, address := "A", token_event := { value := "0.005" }, transaction_hash := "h1" }

/-- Matching receive event. -/
def kcalEdgeRecv : Event :=
  { date := 100, address := "B", token_event := { value := "0.005" }, transaction_hash := "h2" }

/-- C7 counterexample: a KCAL send value of exactly 0.005 (=1/200) is NOT
strictly below 0.005, so the claim's filter would emit the pair, yet the
code skips it: the code's threshold is `Decimal(0.005)`, the exact value of
the double nearest 0.005, which lies strictly above 1/200. -/
theorem claim_C7_counterexample :
    pyDecimal "0.005" = .ok (mkRat 1 200) ∧
    ¬ (mkRat 1 200 < mkRat 1 200) ∧
    mkRat 1 200 < kcalDustThreshold ∧
    pairEarlyPage "KCAL" [kcalEdgeSend] [kcalEdgeRecv] = .ok [] := by
  decide

/-- C7 (amended): in `fetch_early_transfers` no address or minimum-value
filtering is applied; exactly for the resolved symbol "KCAL" a paired
(send, receive) event is skipped iff the send value is strictly below
`Decimal(0.005)` = 5764607523034235/2^60 — the exact rational of the
IEEE-754 double nearest 0.005, slightly above 1/200 — and for every other
symbol every paired event is emitted. -/
theorem claim_C7_kcal_dust_amended :
    (∀ s r v, pyDecimal s.token_event.value = .ok v →
      pairEarlyPage "KCAL" [s] [r] =
        .ok (if v < kcalDustThreshold then [] else [mkTransferRow s r])) ∧
    (∀ (sym : String) (send recv : List Event), (sym == "KCAL") = false →
      send.length ≤ recv.length →
      pairEarlyPage sym send recv = .ok ((send.zip recv).map fun p => mkTransferRow p.1 p.2)) ∧
    kcalDustThreshold = mkRat 5764607523034235 1152921504606846976 := by
  refine ⟨?_, ?_, rfl⟩
  · intro s r v hv
    simp only [pairEarlyPage]
    rw [if_pos (by decide : ("KCAL" == "KCAL") = true)]
    rw [exBind_ok_left hv, pure_bind]
    simp only [ok_bind]
    by_cases hlt : v < kcalDustThreshold
    · simp [pure, Except.pure, hlt]
    · simp [pure, Except.pure, hlt]
  · intro sym send
    induction send with
    | nil => intro recv _ _; simp [pairEarlyPage]
    | cons s st ih =>
        intro recv hsym hlen
        cases recv with
        | nil => simp at hlen
        | cons r rt =>
            have hrec := ih rt hsym (by simpa using hlen)
            simp only [pairEarlyPage]
            rw [if_neg (by simp [hsym])]
            rw [pure_bind]
            rw [exBind_ok_left hrec]
            simp [pure, Except.pure]

/-- C7 witness: a KCAL pair with send value "5" parses to 5, is not below
the dust threshold, and is emitted; symbol resolution drives the branch. -/
theorem claim_C7_witness :
    pairEarlyPage "KCAL" [kcalEdgeSend] [kcalEdgeRecv] =
      .ok (if mkRat 1 200 < kcalDustThreshold then [] else [mkTransferRow kcalEdgeSend kcalEdgeRecv]) ∧
    pairEarlyPage "SOUL" [kcalEdgeSend] [kcalEdgeRecv] =
      .ok [mkTransferRow kcalEdgeSend kcalEdgeRecv] := by
  constructor
  · exact claim_C7_kcal_dust_amended.1 kcalEdgeSend kcalEdgeRecv (mkRat 1 200) (by decide)
  · exact (claim_C7_kcal_dust_amended.2.1 "SOUL" [kcalEdgeSend] [kcalEdgeRecv]
      (by decide) (by decide)).trans (by decide)

/-- C1: every record emitted by a transfer page pairs the i-th send event
with the i-th receive event, taking timestamp, sender, quantity and
transaction hash from the send event and the destination from the receive
event; and the page loop stops as soon as either stream returns zero
events for a page. -/
theorem claim_C1_positional_pairing :
    (∀ (minV : ℚ) (addrs : Option (List String)) (fromOnly : Bool) (send recv : List Event)
      (rows : List TransferRow),
      pairTransfersPage minV addrs fromOnly send recv = .ok rows →
      ∀ t ∈ rows, ∃ i, ∃ hs : i < send.length, ∃ hr : i < recv.length,
        t = mkTransferRow (send.get ⟨i, hs⟩) (recv.get ⟨i, hr⟩) ∧
        t.timestamp = (send.get ⟨i, hs⟩).date ∧
        t.from_address = (send.get ⟨i, hs⟩).address ∧
        t.quantity = (send.get ⟨i, hs⟩).token_event.value ∧
        t.transaction_hash = (send.get ⟨i, hs⟩).transaction_hash ∧
        t.to_address = (recv.get ⟨i, hr⟩).address) ∧
    (∀ (env : TransfersEnv) (minV : ℚ) (addrs : Option (List String)) (fromOnly : Bool)
      (limit fuel k : ℕ) (acc : List TransferRow) (s r : List Event),
      env.sendPages k = .ok s → env.recvPages k = .ok r → s = [] ∨ r = [] →
      transfersLoop env minV addrs fromOnly limit (fuel + 1) k acc = some (.ok acc)) := by
  constructor
  · intro minV addrs fromOnly send
    induction send with
    | nil =>
        intro recv rows hok t ht
        simp only [pairTransfersPage, Except.ok.injEq] at hok
        subst hok
        simp at ht
    | cons s st ih =>
        intro recv rows hok t ht
        cases recv with
        | nil => simp [pairTransfersPage] at hok
        | cons r rt =>
            simp only [pairTransfersPage] at hok
            obtain ⟨v, hv, hok2⟩ := exBind_ok.mp hok
            obtain ⟨rest, hrest, hok3⟩ := exBind_ok.mp hok2
            by_cases hk : transferKeep minV addrs fromOnly s r v
            · rw [if_pos hk] at hok3
              simp only [pure, Except.pure, Except.ok.injEq] at hok3
              subst hok3
              rcases List.mem_cons.mp ht with h1 | h2
              · subst h1
                exact ⟨0, Nat.succ_pos _, Nat.succ_pos _, rfl, rfl, rfl, rfl, rfl, rfl⟩
              · obtain ⟨i, hsi, hri, hfields⟩ := ih rt rest hrest t h2
                exact ⟨i + 1, Nat.succ_lt_succ hsi, Nat.succ_lt_succ hri, hfields⟩
            · rw [if_neg hk] at hok3
              simp only [pure, Except.pure, Except.ok.injEq] at hok3
              subst hok3
              obtain ⟨i, hsi, hri, hfields⟩ := ih rt rest hrest t ht
              exact ⟨i + 1, Nat.succ_lt_succ hsi, Nat.succ_lt_succ hri, hfields⟩
  · intro env minV addrs fromOnly limit fuel k acc s r hs hr hemp
    simp only [transfersLoop, hs, hr]
    rcases hemp with h | h
    · subst h; simp
    · subst h; simp

/-- Send event used by concrete witnesses (value "5"). -/
def eSendW : Event :=
  { date := 100, address := "A", token_event := { value := "5" }, transaction_hash := "h1" }

/-- Receive event used by concrete witnesses. -/
def eRecvW : Event :=
  { date := 200, address := "B", token_event := { value := "7" }, transaction_hash := "h2" }

/-- Transfers environment whose pages are all empty. -/
def envStopW : TransfersEnv :=
  { resolveSymbol := .ok "T", sendPages := fun _ => .ok [], recvPages := fun _ => .ok [] }

/-- C1 witness: the single-pair page pairs position 0 with position 0, and
an empty first page stops the loop with the accumulator unchanged. -/
theorem claim_C1_witness :
    (∃ i, ∃ hs : i < [eSendW].length, ∃ hr : i < [eRecvW].length,
      mkTransferRow eSendW eRecvW = mkTransferRow ([eSendW].get ⟨i, hs⟩) ([eRecvW].get ⟨i, hr⟩) ∧
      (mkTransferRow eSendW eRecvW).timestamp = ([eSendW].get ⟨i, hs⟩).date ∧
      (mkTransferRow eSendW eRecvW).from_address = ([eSendW].get ⟨i, hs⟩).address ∧
      (mkTransferRow eSendW eRecvW).quantity = ([eSendW].get ⟨i, hs⟩).token_event.value ∧
      (mkTransferRow eSendW eRecvW).transaction_hash = ([eSendW].get ⟨i, hs⟩).transaction_hash ∧
      (mkTransferRow eSendW eRecvW).to_address = ([eRecvW].get ⟨i, hr⟩).address) ∧
    transfersLoop envStopW 0 none false 20000 1 0 [] = some (.ok []) := by
  constructor
  · exact claim_C1_positional_pairing.1 0 none false [eSendW] [eRecvW]
      [mkTransferRow eSendW eRecvW] (by decide) (mkTransferRow eSendW eRecvW) (by simp)
  · exact claim_C1_positional_pairing.2 envStopW 0 none false 20000 0 0 [] [] [] rfl rfl (Or.inl rfl)

/-- C2: a paired (send, receive) event passes the `fetch_transfers` filter
iff the send value is not strictly below `min_value` and, when a non-empty
address set is supplied, the send address is of interest (with
`from_address_only`) or either endpoint is (without); with no (or an
empty) address set only the value test applies.  The page output is
exactly the positional zip filtered by this predicate. -/
theorem claim_C2_transfer_filter :
    (∀ (minV : ℚ) (addrs : Option (List String)) (fromOnly : Bool) (send recv : List Event),
      send.length ≤ recv.length →
      (∀ s ∈ send, (pyDecimal s.token_event.value).isOk = true) →
      pairTransfersPage minV addrs fromOnly send recv =
        .ok ((send.zip recv).filterMap fun p =>
          match pyDecimal p.1.token_event.value with
          | .ok v => if transferKeep minV addrs fromOnly p.1 p.2 v then some (mkTransferRow p.1 p.2) else none
          | .error _ => none)) ∧
    (∀ (minV : ℚ) (addrs : Option (List String)) (fromOnly : Bool) (s r : Event) (v : ℚ),
      transferKeep minV addrs fromOnly s r v = true ↔
        (¬ v < minV ∧
          (addrTruthy addrs = true →
            (fromOnly = true → (addrElems addrs).contains s.address = true) ∧
            (fromOnly = false →
              ((addrElems addrs).contains s.address || (addrElems addrs).contains r.address) = true)))) ∧
    (∀ (minV : ℚ) (addrs : Option (List String)) (fromOnly : Bool) (s r : Event) (v : ℚ),
      addrTruthy addrs = false →
      (transferKeep minV addrs fromOnly s r v = true ↔ ¬ v < minV)) := by
  refine ⟨pairTransfersPage_spec, ?_, ?_⟩
  · intro minV addrs fromOnly s r v
    unfold transferKeep
    split_ifs with h1 h2 h3
    · simp [h1]
    · simp [h1, h2, h3]
    · simp only [Bool.not_eq_true] at h3
      simp [h1, h2, h3]
    · simp only [Bool.not_eq_true] at h2
      simp [h1, h2]
  · intro minV addrs fromOnly s r v htr
    unfold transferKeep
    rw [htr]
    by_cases h1 : v < minV
    · simp [h1]
    · simp [h1]

/-- C2 witness: the spec's worked example — send value 5 with sender "A"
and receiver "B": included with `addresses={"B"}, from_address_only=false`,
excluded with `from_address_only=true`, and excluded with `min_value=10`. -/
theorem claim_C2_witness :
    pairTransfersPage 0 (some ["B"]) false [eSendW] [eRecvW] = .ok [mkTransferRow eSendW eRecvW] ∧
    pairTransfersPage 0 (some ["B"]) true [eSendW] [eRecvW] = .ok [] ∧
    pairTransfersPage (mkRat 10 1) none false [eSendW] [eRecvW] = .ok [] := by
  refine ⟨?_, ?_, ?_⟩
  · exact (claim_C2_transfer_filter.1 0 (some ["B"]) false [eSendW] [eRecvW]
      (by decide) (by decide)).trans (by decide)
  · exact (claim_C2_transfer_filter.1 0 (some ["B"]) true [eSendW] [eRecvW]
      (by decide) (by decide)).trans (by decide)
  · exact (claim_C2_transfer_filter.1 (mkRat 10 1) none false [eSendW] [eRecvW]
      (by decide) (by decide)).trans (by decide)

/-- C5: in `fetch_holders` the balance of a raw holder is the amount
attached to the token's own symbol in the holder's balance list (default
"0" when absent), and when every balance parses, the page output is
exactly the holders whose parsed balance is `>= min_balance` (inclusive
boundary). -/
theorem claim_C5_holder_balance_filter :
    (∀ (sym : String) (h : RawHolder),
      extractBalance sym h =
        ((h.balances.find? fun b => b.token.symbol == sym).map RawBalance.amount).getD "0") ∧
    (∀ (sym : String) (minB : ℚ) (hs : List RawHolder),
      (∀ h ∈ hs, (pyDecimal (extractBalance sym h)).isOk = true) →
      holdersProcessPage sym minB hs = .ok (hs.filterMap fun h =>
        match pyDecimal (extractBalance sym h) with
        | .ok d => if minB ≤ d then some (HolderRow.mk h.address (extractBalance sym h)) else none
        | .error _ => none)) := by
  exact ⟨fun _ _ => rfl, holdersProcessPage_spec⟩

/-- Raw holder used by concrete witnesses: address "X", balance "0" for
token "T". -/
def hhW : RawHolder :=
  { address := "X", balances := [{ token := { symbol := "T" }, amount := "0" }] }

/-- C5 witness: the inclusive boundary — balance "0" is included at
`min_balance = 0` and excluded at `min_balance = 1`. -/
theorem claim_C5_witness :
    holdersProcessPage "T" 0 [hhW] = .ok [HolderRow.mk "X" "0"] ∧
    holdersProcessPage "T" (mkRat 1 1) [hhW] = .ok [] := by
  constructor
  · exact (claim_C5_holder_balance_filter.2 "T" 0 [hhW] (by decide)).trans (by decide)
  · exact (claim_C5_holder_balance_filter.2 "T" (mkRat 1 1) [hhW] (by decide)).trans (by decide)

/-- C3: the `fetch_holders` pagination with page limit 20000 — a full first
page followed by an empty page means exactly two requests and exactly
20000 accumulated records (filters accepting every record); a short first
page means exactly one request accumulating its records; a full page in
general advances the loop with the offset incremented by the limit. -/
theorem claim_C3_holders_pagination :
    (∀ (env : HoldersEnv) (sym : String) (minB : ℚ) (p0 : List RawHolder)
      (rows0 : List HolderRow) (fuel : ℕ),
      env.addressPages 0 = .ok p0 → p0.length = 20000 →
      env.addressPages 1 = .ok [] →
      holdersProcessPage sym minB p0 = .ok rows0 → rows0.length = p0.length →
      holdersLoop env sym minB 20000 (fuel + 2) 0 [] = some (.ok (rows0, 2)) ∧
        rows0.length = 20000) ∧
    (∀ (env : HoldersEnv) (sym : String) (minB : ℚ) (p0 : List RawHolder)
      (rows0 : List HolderRow) (fuel : ℕ),
      env.addressPages 0 = .ok p0 → p0 ≠ [] → p0.length < 20000 →
      holdersProcessPage sym minB p0 = .ok rows0 →
      holdersLoop env sym minB 20000 (fuel + 1) 0 [] = some (.ok (rows0, 1))) ∧
    (∀ (env : HoldersEnv) (sym : String) (minB : ℚ) (page : List RawHolder)
      (rows : List HolderRow) (fuel k : ℕ) (acc : List HolderRow),
      env.addressPages k = .ok page → page.length = 20000 →
      holdersProcessPage sym minB page = .ok rows →
      holdersLoop env sym minB 20000 (fuel + 1) k acc =
        holdersLoop env sym minB 20000 fuel (k + 1) (acc ++ rows)) := by
  refine ⟨?_, ?_, ?_⟩
  · intro env sym minB p0 rows0 fuel h0 hlen h1 hp hrl
    have hne : p0 ≠ [] := by
      intro h
      rw [h] at hlen
      simp at hlen
    have hnlt : ¬ p0.length < 20000 := by omega
    refine ⟨?_, by omega⟩
    simp only [holdersLoop, h0, List.isEmpty_iff]
    rw [if_neg hne, hp]
    simp only [hnlt, if_false]
    simp [holdersLoop, h1]
  · intro env sym minB p0 rows0 fuel h0 hne hlt hp
    simp [holdersLoop, h0, List.isEmpty_iff, hne, hp, hlt]
  · intro env sym minB page rows fuel k acc hk hlen hp
    have hne : page ≠ [] := by
      intro h
      rw [h] at hlen
      simp at hlen
    have hnlt : ¬ page.length < 20000 := by omega
    simp only [holdersLoop, hk, List.isEmpty_iff]
    rw [if_neg hne, hp]
    simp only [hnlt, if_false]

/-- Environment for the two-page pagination witness: a full page of 20000
passing holders, then an empty page. -/
def envPagW : HoldersEnv :=
  { resolveSymbol := .ok "T"
    addressPages := fun k => if k = 0 then .ok (List.replicate 20000 hhW) else .ok [] }

/-- Environment for the short-page pagination witness: 15000 records. -/
def envShortW : HoldersEnv :=
  { resolveSymbol := .ok "T"
    addressPages := fun k => if k = 0 then .ok (List.replicate 15000 hhW) else .ok [] }

/-- C3 witness: 20000 records then an empty page terminates after two
requests with all 20000 records; a 15000-record first page terminates
after one request with 15000 records. -/
theorem claim_C3_witness :
    holdersLoop envPagW "T" 0 20000 2 0 [] =
      some (.ok (List.replicate 20000 (HolderRow.mk "X" "0"), 2)) ∧
    holdersLoop envShortW "T" 0 20000 1 0 [] =
      some (.ok (List.replicate 15000 (HolderRow.mk "X" "0"), 1)) := by
  have hd : pyDecimal (extractBalance "T" hhW) = .ok 0 := by decide
  have hp20 := holdersProcessPage_replicate "T" 0 hhW 0 hd (by decide) 20000
  have hp15 := holdersProcessPage_replicate "T" 0 hhW 0 hd (by decide) 15000
  constructor
  · exact (claim_C3_holders_pagination.1 envPagW "T" 0 (List.replicate 20000 hhW)
      (List.replicate 20000 (HolderRow.mk "X" "0")) 0 rfl (List.length_replicate 20000 hhW) rfl hp20
      (by rw [List.length_replicate, List.length_replicate])).1
  · exact claim_C3_holders_pagination.2.1 envShortW "T" 0 (List.replicate 15000 hhW)
      (List.replicate 15000 (HolderRow.mk "X" "0")) 0 rfl
      (by
        intro h
        have h2 := congrArg List.length h
        rw [List.length_replicate] at h2
        exact absurd h2 (by decide))
      (by rw [List.length_replicate]; omega) hp15

/-- C4: every fetch operation is wrapped in `try/except Exception` whose
handler returns `None`; the operation never surfaces an exception — the
unfueled operations always return an ok result, and whenever a fueled
operation returns at all, the result is an ok result. -/
theorem claim_C4_no_raise :
    (∀ (pdp : Scalar → Except String PyDatetime) (env : TokenInfoEnv),
      ∃ r, fetch_token_info pdp env = .ok r) ∧
    (∀ (pdp : Scalar → Except String PyDatetime) (env : PricesEnv),
      ∃ r, fetch_prices pdp env = .ok r) ∧
    (∀ (env : HoldersEnv) (minB : ℚ) (fuel : ℕ) (res : Except String (Option Df)),
      fetch_holders env minB fuel = some res → res.isOk = true) ∧
    (∀ (pdp : Scalar → Except String PyDatetime) (env : TransfersEnv)
      (addrs : Option (List String)) (fromOnly : Bool) (minV : ℚ) (fuel : ℕ)
      (res : Except String (Option Df)),
      fetch_transfers pdp env addrs fromOnly minV fuel = some res → res.isOk = true) ∧
    (∀ (pdp : Scalar → Except String PyDatetime) (env : TransfersEnv) (fuel : ℕ)
      (res : Except String (Option Df)),
      fetch_early_transfers pdp env fuel = some res → res.isOk = true) := by
  refine ⟨?_, ?_, ?_, ?_, ?_⟩
  · intro pdp env
    cases hb : fetch_token_info_body pdp env with
    | error e => exact ⟨none, by simp [fetch_token_info, hb, tryExceptNone]⟩
    | ok a => exact ⟨some a, by simp [fetch_token_info, hb, tryExceptNone]⟩
  · intro pdp env
    cases hb : fetch_prices_body pdp env with
    | error e => exact ⟨none, by simp [fetch_prices, hb, tryExceptNone]⟩
    | ok a => exact ⟨some a, by simp [fetch_prices, hb, tryExceptNone]⟩
  · intro env minB fuel res hres
    simp only [fetch_holders] at hres
    cases hb : fetch_holders_body env minB fuel with
    | none => rw [hb] at hres; simp at hres
    | some b =>
        rw [hb] at hres
        simp at hres
        subst hres
        cases b <;> simp [tryExceptNone, Except.isOk, Except.toBool]
  · intro pdp env addrs fromOnly minV fuel res hres
    simp only [fetch_transfers] at hres
    cases hb : fetch_transfers_body pdp env addrs fromOnly minV fuel with
    | none => rw [hb] at hres; simp at hres
    | some b =>
        rw [hb] at hres
        simp at hres
        subst hres
        cases b <;> simp [tryExceptNone, Except.isOk, Except.toBool]
  · intro pdp env fuel res hres
    simp only [fetch_early_transfers] at hres
    cases hb : fetch_early_transfers_body pdp env fuel with
    | none => rw [hb] at hres; simp at hres
    | some b =>
        rw [hb] at hres
        simp at hres
        subst hres
        cases b <;> simp [tryExceptNone, Except.isOk, Except.toBool]

/-- Token-info environment whose requests all fail. -/
def envTIW : TokenInfoEnv := { resolveSymbol := .error "boom", tokens := .error "boom" }

/-- Prices environment whose requests all fail. -/
def envPrW : PricesEnv := { resolveSymbol := .error "boom", historyPrices := .error "boom" }

/-- Holders environment whose pages are all empty. -/
def envHE : HoldersEnv := { resolveSymbol := .ok "T", addressPages := fun _ => .ok [] }

/-- C4 witness: failing environments still produce ok (absent) results, and
a terminating holders fetch yields an ok result. -/
theorem claim_C4_witness :
    (∃ r, fetch_token_info (fun _ => .error "na") envTIW = .ok r) ∧
    (∃ r, fetch_prices (fun _ => .error "na") envPrW = .ok r) ∧
    Except.isOk (Except.ok (none : Option Df) : Except String (Option Df)) = true := by
  refine ⟨claim_C4_no_raise.1 (fun _ => .error "na") envTIW,
          claim_C4_no_raise.2.1 (fun _ => .error "na") envPrW,
          claim_C4_no_raise.2.2.1 envHE 0 1 (.ok none) (by decide)⟩

/-- C8: an empty accumulated record list makes every formatting routine
raise a missing-column error (an empty record list builds a frame with no
columns), which each fetch operation's handler converts to `None`; so an
all-filtered or empty upstream result surfaces as the absent result. -/
theorem claim_C8_empty_accum_none :
    format_holders_df (pdDataFrame []) = .error "KeyError" ∧
    (∀ pdp, format_transfers_df pdp (pdDataFrame []) = .error "KeyError") ∧
    (∀ pdp, format_prices_df pdp (pdDataFrame []) = .error "KeyError") ∧
    (∀ (env : HoldersEnv) (minB : ℚ) (fuel : ℕ) (sym : String) (cnt : ℕ),
      env.resolveSymbol = .ok sym →
      holdersLoop env sym minB 20000 fuel 0 [] = some (.ok ([], cnt)) →
      fetch_holders env minB fuel = some (.ok none)) ∧
    (∀ (pdp : Scalar → Except String PyDatetime) (env : TransfersEnv)
      (addrs : Option (List String)) (fromOnly : Bool) (minV : ℚ) (fuel : ℕ) (sym : String),
      env.resolveSymbol = .ok sym →
      transfersLoop env minV addrs fromOnly 20000 fuel 0 [] = some (.ok []) →
      fetch_transfers pdp env addrs fromOnly minV fuel = some (.ok none)) ∧
    (∀ (pdp : Scalar → Except String PyDatetime) (env : TransfersEnv) (fuel : ℕ) (sym : String),
      env.resolveSymbol = .ok sym →
      earlyLoop env sym 20000 fuel 0 [] = some (.ok []) →
      fetch_early_transfers pdp env fuel = some (.ok none)) ∧
    (∀ (pdp : Scalar → Except String PyDatetime) (env : PricesEnv) (sym : String),
      env.resolveSymbol = .ok sym → env.historyPrices = .ok [] →
      fetch_prices pdp env = .ok none) := by
  refine ⟨by decide, fun pdp => rfl, fun pdp => rfl, ?_, ?_, ?_, ?_⟩
  · intro env minB fuel sym cnt hres hloop
    simp only [fetch_holders, fetch_holders_body, hres, hloop]
    rfl
  · intro pdp env addrs fromOnly minV fuel sym hres hloop
    simp only [fetch_transfers, fetch_transfers_body, hres, hloop]
    rfl
  · intro pdp env fuel sym hres hloop
    simp only [fetch_early_transfers, fetch_early_transfers_body, hres, hloop]
    rfl
  · intro pdp env sym hres hhist
    simp only [fetch_prices, fetch_prices_body]
    rw [exBind_ok_left hres, exBind_ok_left hhist]
    rfl

/-- Prices environment with an empty history. -/
def envPrE : PricesEnv := { resolveSymbol := .ok "T", historyPrices := .ok [] }

/-- C8 witness: concrete empty upstreams make all four operations return
the absent result. -/
theorem claim_C8_witness :
    fetch_holders envHE 0 1 = some (.ok none) ∧
    fetch_transfers (fun _ => .error "na") envStopW none false 0 1 = some (.ok none) ∧
    fetch_early_transfers (fun _ => .error "na") envStopW 1 = some (.ok none) ∧
    fetch_prices (fun _ => .error "na") envPrE = .ok none := by
  refine ⟨claim_C8_empty_accum_none.2.2.2.1 envHE 0 1 "T" 1 rfl (by decide),
          claim_C8_empty_accum_none.2.2.2.2.1 (fun _ => .error "na") envStopW none false 0 1 "T" rfl (by decide),
          claim_C8_empty_accum_none.2.2.2.2.2.1 (fun _ => .error "na") envStopW 1 "T" rfl (by decide),
          claim_C8_empty_accum_none.2.2.2.2.2.2 (fun _ => .error "na") envPrE "T" rfl rfl⟩

/-- C9: when the receive list of a page is shorter than the send list (both
non-empty) the positional indexing raises and the whole operation returns
`None`, discarding the accumulation; and receive events at positions
beyond the send-list length never influence the page output. -/
theorem claim_C9_length_mismatch :
    (∀ (minV : ℚ) (addrs : Option (List String)) (fromOnly : Bool) (send recv : List Event),
      recv.length < send.length →
      ∃ e, pairTransfersPage minV addrs fromOnly send recv = .error e) ∧
    (∀ (sym : String) (send recv : List Event), recv.length < send.length →
      ∃ e, pairEarlyPage sym send recv = .error e) ∧
    (∀ (minV : ℚ) (addrs : Option (List String)) (fromOnly : Bool) (send recv : List Event),
      pairTransfersPage minV addrs fromOnly send recv =
        pairTransfersPage minV addrs fromOnly send (recv.take send.length)) ∧
    (∀ (sym : String) (send recv : List Event),
      pairEarlyPage sym send recv = pairEarlyPage sym send (recv.take send.length)) ∧
    (∀ (pdp : Scalar → Except String PyDatetime) (env : TransfersEnv)
      (addrs : Option (List String)) (fromOnly : Bool) (minV : ℚ) (fuel : ℕ) (sym : String)
      (s r : List Event),
      env.resolveSymbol = .ok sym → env.sendPages 0 = .ok s → env.recvPages 0 = .ok r →
      s ≠ [] → r ≠ [] → r.length < s.length →
      fetch_transfers pdp env addrs fromOnly minV (fuel + 1) = some (.ok none)) ∧
    (∀ (pdp : Scalar → Except String PyDatetime) (env : TransfersEnv) (fuel : ℕ) (sym : String)
      (s r : List Event),
      env.resolveSymbol = .ok sym → env.sendPages 0 = .ok s → env.recvPages 0 = .ok r →
      s ≠ [] → r ≠ [] → r.length < s.length →
      fetch_early_transfers pdp env (fuel + 1) = some (.ok none)) := by
  refine ⟨pairTransfersPage_short, pairEarlyPage_short,
          fun minV addrs fromOnly send recv => pairTransfersPage_take send recv,
          fun sym send recv => pairEarlyPage_take send recv, ?_, ?_⟩
  · intro pdp env addrs fromOnly minV fuel sym s r hres hs0 hr0 hsne hrne hlt
    obtain ⟨e, he⟩ := pairTransfersPage_short minV addrs fromOnly s r hlt
    simp only [fetch_transfers, fetch_transfers_body, hres]
    simp only [transfersLoop, hs0, hr0]
    rw [if_neg (by simp [List.isEmpty_iff, hsne, hrne]), he]
    rfl
  · intro pdp env fuel sym s r hres hs0 hr0 hsne hrne hlt
    obtain ⟨e, he⟩ := pairEarlyPage_short sym s r hlt
    simp only [fetch_early_transfers, fetch_early_transfers_body, hres]
    simp only [earlyLoop, hs0, hr0]
    rw [if_neg (by simp [List.isEmpty_iff, hsne, hrne]), he]
    rfl

/-- Transfers environment whose first page has two send events but only one
receive event. -/
def envMisW : TransfersEnv :=
  { resolveSymbol := .ok "T"
    sendPages := fun _ => .ok [eSendW, eSendW]
    recvPages := fun _ => .ok [eRecvW] }

/-- C9 witness: a two-send/one-receive page makes both transfer operations
return the absent result. -/
theorem claim_C9_witness :
    fetch_transfers (fun _ => .error "na") envMisW none false 0 1 = some (.ok none) ∧
    fetch_early_transfers (fun _ => .error "na") envMisW 1 = some (.ok none) := by
  constructor
  · exact claim_C9_length_mismatch.2.2.2.2.1 (fun _ => .error "na") envMisW none false 0 0 "T"
      [eSendW, eSendW] [eRecvW] rfl rfl rfl (by decide) (by decide) (by decide)
  · exact claim_C9_length_mismatch.2.2.2.2.2 (fun _ => .error "na") envMisW 0 "T"
      [eSendW, eSendW] [eRecvW] rfl rfl rfl (by decide) (by decide) (by decide)

/-- Every datetime produced by `to_timestamp` is timezone-naive, for every
behaviour of the pandas parser. -/
lemma to_timestamp_tz_none (pdp : Scalar → Except String PyDatetime) (v : Scalar)
    (d : PyDatetime) (h : to_timestamp pdp v = .ok d) : d.tz = none := by
  cases v with
  | sDt d0 =>
      simp only [to_timestamp, Except.ok.injEq] at h
      subst h; rfl
  | sInt n =>
      simp only [to_timestamp, Except.ok.injEq] at h
      subst h; rfl
  | sFloat f =>
      cases f with
      | nan => simp [to_timestamp] at h
      | inf neg => simp [to_timestamp] at h
      | fin q =>
          simp only [to_timestamp, Except.ok.injEq] at h
          subst h; rfl
  | sNone =>
      simp only [to_timestamp] at h
      cases hp : pdp .sNone with
      | error e => rw [hp] at h; simp at h
      | ok ts =>
          rw [hp] at h
          simp only [Except.ok.injEq] at h
          subst h; rfl
  | sStr s =>
      simp only [to_timestamp] at h
      cases hp : pdp (.sStr s) with
      | error e => rw [hp] at h; simp at h
      | ok ts =>
          rw [hp] at h
          simp only [Except.ok.injEq] at h
          subst h; rfl
  | sDec q =>
      simp only [to_timestamp] at h
      cases hp : pdp (.sDec q) with
      | error e => rw [hp] at h; simp at h
      | ok ts =>
          rw [hp] at h
          simp only [Except.ok.injEq] at h
          subst h; rfl

/-- C6: every value accepted by `to_timestamp` comes out timezone-naive —
for a datetime input or a parsed string the zone is stripped and the wall
clock preserved (stripping, not conversion) — and every timestamp cell of
a successfully formatted transfers, prices or historical-holders table is
a timezone-naive datetime. -/
theorem claim_C6_naive_timestamps :
    (∀ (pdp : Scalar → Except String PyDatetime) (v : Scalar) (d : PyDatetime),
      to_timestamp pdp v = .ok d → d.tz = none) ∧
    (∀ (pdp : Scalar → Except String PyDatetime) (d0 : PyDatetime),
      to_timestamp pdp (.sDt d0) = .ok (PyDatetime.mk d0.wall none)) ∧
    (∀ (pdp : Scalar → Except String PyDatetime) (s : String) (ts : PyDatetime),
      pdp (.sStr s) = .ok ts →
      to_timestamp pdp (.sStr s) = .ok (PyDatetime.mk ts.wall none)) ∧
    (∀ (pdp : Scalar → Except String PyDatetime) (df out : Df),
      format_transfers_df pdp df = .ok out →
      ∀ p ∈ out.cols, p.1 = "timestamp" → ∀ c ∈ p.2, ∃ dt, c = .sDt dt ∧ dt.tz = none) ∧
    (∀ (pdp : Scalar → Except String PyDatetime) (df out : Df),
      format_prices_df pdp df = .ok out →
      ∀ p ∈ out.cols, p.1 = "timestamp" → ∀ c ∈ p.2, ∃ dt, c = .sDt dt ∧ dt.tz = none) ∧
    (∀ (pdp : Scalar → Except String PyDatetime) (df out : Df),
      format_historical_holders_df pdp df = .ok out →
      ∀ p ∈ out.cols, p.1 = "timestamp" → ∀ c ∈ p.2, ∃ dt, c = .sDt dt ∧ dt.tz = none) := by
  refine ⟨to_timestamp_tz_none, fun pdp d0 => rfl, ?_, ?_, ?_, ?_⟩
  · intro pdp s ts h
    simp only [to_timestamp, h]
    rfl
  · intro pdp df out h p hp hname c hc
    simp only [format_transfers_df] at h
    obtain ⟨ts, h1, h⟩ := exBind_ok.mp h
    obtain ⟨ts2, h2, h⟩ := exBind_ok.mp h
    obtain ⟨fa, h3, h⟩ := exBind_ok.mp h
    obtain ⟨ta, h4, h⟩ := exBind_ok.mp h
    obtain ⟨qt, h5, h⟩ := exBind_ok.mp h
    obtain ⟨qt2, h6, h⟩ := exBind_ok.mp h
    obtain ⟨th, h7, h⟩ := exBind_ok.mp h
    simp only [pure, Except.pure, Except.ok.injEq] at h
    subst h
    simp only [List.mem_cons, List.not_mem_nil, or_false] at hp
    rcases hp with hp | hp | hp | hp | hp <;> subst hp
    · simp only [tzLocalizeNoneCol, List.map_map, List.mem_map] at hc
      obtain ⟨d, _, hceq⟩ := hc
      exact ⟨replaceTzNone d, hceq.symm, rfl⟩
    · simp at hname
    · simp at hname
    · simp at hname
    · simp at hname
  · intro pdp df out h p hp hname c hc
    simp only [format_prices_df] at h
    obtain ⟨ts, h1, h⟩ := exBind_ok.mp h
    obtain ⟨ts2, h2, h⟩ := exBind_ok.mp h
    obtain ⟨ap, h3, h⟩ := exBind_ok.mp h
    obtain ⟨ap2, h4, h⟩ := exBind_ok.mp h
    obtain ⟨cp, h5, h⟩ := exBind_ok.mp h
    obtain ⟨cp2, h6, h⟩ := exBind_ok.mp h
    obtain ⟨vol, h7, h⟩ := exBind_ok.mp h
    obtain ⟨vol2, h8, h⟩ := exBind_ok.mp h
    simp only [pure, Except.pure, Except.ok.injEq] at h
    subst h
    simp only [List.mem_cons, List.not_mem_nil, or_false] at hp
    rcases hp with hp | hp | hp | hp <;> subst hp
    · simp only [tzLocalizeNoneCol, List.map_map, List.mem_map] at hc
      obtain ⟨d, _, hceq⟩ := hc
      exact ⟨replaceTzNone d, hceq.symm, rfl⟩
    · simp at hname
    · simp at hname
    · simp at hname
  · intro pdp df out h p hp hname c hc
    simp only [format_historical_holders_df] at h
    obtain ⟨ts, h1, h⟩ := exBind_ok.mp h
    obtain ⟨ts2, h2, h⟩ := exBind_ok.mp h
    obtain ⟨oa, h3, h⟩ := exBind_ok.mp h
    obtain ⟨bal, h4, h⟩ := exBind_ok.mp h
    obtain ⟨bal2, h5, h⟩ := exBind_ok.mp h
    simp only [pure, Except.pure, Except.ok.injEq] at h
    subst h
    simp only [List.mem_cons, List.not_mem_nil, or_false] at hp
    rcases hp with hp | hp | hp <;> subst hp
    · simp only [List.mem_map] at hc
      obtain ⟨d, hd, hceq⟩ := hc
      obtain ⟨a, _, ha⟩ := mapM_ok_mem h2 d hd
      exact ⟨d, hceq.symm, to_timestamp_tz_none pdp a d ha⟩
    · simp at hname
    · simp at hname

/-- Pandas-parser stub that returns a timezone-aware datetime, standing for
a string that carries an explicit UTC offset. -/
def pdpAwareW : Scalar → Except String PyDatetime := fun _ => .ok (PyDatetime.mk 7 (some 120))

/-- Input transfers frame with a timezone-aware datetime in the timestamp
column. -/
def dfAwareW : Df :=
  ⟨[("timestamp", [.sDt (PyDatetime.mk 5 (some 60))]), ("from_address", [.sStr " a "]),
    ("to_address", [.sStr "b"]), ("quantity", [.sStr "1.5"]), ("transaction_hash", [.sStr "h"])]⟩

/-- Formatted image of `dfAwareW`: the zone is stripped, the wall clock
kept. -/
def outAwareW : Df :=
  ⟨[("timestamp", [.sDt (PyDatetime.mk 5 none)]), ("from_address", [.sStr "a"]),
    ("to_address", [.sStr "b"]), ("quantity", [.sDec (mkRat 3 2)]), ("transaction_hash", [.sStr "h"])]⟩

/-- C6 witness: a tz-aware parsed string comes out naive with its wall
clock preserved, and the formatted timestamp cell of a tz-aware input is
naive. -/
theorem claim_C6_witness :
    to_timestamp pdpAwareW (.sStr "2021-01-01 00:00:00+02:00") = .ok (PyDatetime.mk 7 none) ∧
    (∃ dt, Scalar.sDt (PyDatetime.mk 5 none) = .sDt dt ∧ dt.tz = none) := by
  constructor
  · exact claim_C6_naive_timestamps.2.2.1 pdpAwareW "2021-01-01 00:00:00+02:00"
      (PyDatetime.mk 7 (some 120)) rfl
  · exact claim_C6_naive_timestamps.2.2.2.1 (fun _ => .error "na") dfAwareW outAwareW (by decide)
      ("timestamp", [.sDt (PyDatetime.mk 5 none)]) (by decide) rfl
      (.sDt (PyDatetime.mk 5 none)) (by decide)

end Phantasma
